import Mathlib

/-!
Verification of the selection-capture subsystem of LLMtoast.

Shallow embedding of `src/llm_toast_core.py` (`_focused_hwnd_and_class`,
`attempt_copy_via_wmcopy_and_sendinput`, `HOTKEY_OPTIONS`) and
`src/llm_toast_io.py` (`register_first_available`, `get_clipboard_text`).

Modelling conventions:
* Time is discrete, in tenths of a millisecond, so that the source's
  `time.sleep(0.02)` is 200 units, `time.sleep(0.01)` is 100 units and
  `time.sleep(0.005)` is 50 units, all exactly representable.
  Checks (reading the clipboard sequence number, reading key state) are
  instantaneous; only the sleeps advance time.  The attempt starts at
  time 0 and `AttemptOut.elapsed` is the time at which it returns, i.e.
  the total time the attempt blocks its calling thread.
* The Win32 environment is a `World`: foreground/focused window data,
  the hardware key state (`GetAsyncKeyState`, assumed stable during one
  attempt, matching the spec's "KeyState ... read once at the start of a
  capture attempt"), the clipboard sequence number and the clipboard
  text as functions of time.  `World.clipText t` is the result the
  clipboard reader (`get_clipboard_text`, modelled separately below as a
  function of a `ClipEnv`) would produce at time `t`.
* Side effects performed by the attempt (the `WM_COPY` message, every
  synthetic key event injected via `SendInput`, and clipboard writes,
  of which the attempt performs none) are recorded in an `Event` trace.
-/

/-! ## Virtual-key and modifier constants (from both source files) -/

def VK_SHIFT : Nat := 0x10
def VK_MENU : Nat := 0x12
def VK_LWIN : Nat := 0x5B
def VK_RWIN : Nat := 0x5C
def VK_CONTROL : Nat := 0x11
def VK_C : Nat := 0x43
def VK_Z : Nat := 0x5A
def VK_SPACE : Nat := 0x20
def VK_OEM_3 : Nat := 0xC0

def MOD_ALT : Nat := 0x1
def MOD_CONTROL : Nat := 0x2
def MOD_SHIFT : Nat := 0x4
def MOD_WIN : Nat := 0x8
def MOD_NOREPEAT : Nat := 0x4000

/-! ## Event trace -/

/-- An observable side effect of the capture protocol:
`wmCopy h` models `io.send_wm_copy(h)`, `keyInput vk down` models
`io.sendinput_key(vk, down)`, and `setClipboard s` models
`io.set_clipboard_text(s)` (never emitted by the capture attempt, which
only reads the clipboard; it is included so that "the protocol performs
no clipboard write" is expressible as absence from the trace). -/
inductive Event where
  | wmCopy (hwnd : Nat)
  | keyInput (vk : Nat) (down : Bool)
  | setClipboard (text : String)
deriving DecidableEq, Repr

/-! ## The environment of one capture attempt -/

/-- The Win32 environment seen by one capture attempt.
`hwndFg = none` models `GetForegroundWindow()` returning NULL;
`guiOk = false` models `GetGUIThreadInfo` failing;
`hwndFocus = none` models `gti.hwndFocus` being NULL;
`clsName` is what `GetClassNameW` yields for the focused control;
`keyDown vk` is the hardware key state polled by `io.is_key_down`;
`seq t` is `GetClipboardSequenceNumber()` at time `t`;
`clipText t` is what `get_clipboard_text()` returns at time `t`. -/
structure World where
  hwndFg : Option Nat
  guiOk : Bool
  hwndFocus : Option Nat
  clsName : String
  keyDown : Nat → Bool
  seq : Nat → Nat
  clipText : Nat → Option String

/-! ## Focus inspector (`_focused_hwnd_and_class`, llm_toast_core.py lines 75-89) -/

/-- `_focused_hwnd_and_class`: if there is no foreground window return
`(None, None, None)`; if `GetGUIThreadInfo` fails return
`(hwnd_fg, None, None)`; otherwise return the focused control and, when
it is non-NULL, its class name. -/
def focused_hwnd_and_class (w : World) : Option Nat × Option Nat × Option String :=
  match w.hwndFg with
  | none => (none, none, none)
  | some hwnd_fg =>
    if ¬ w.guiOk then (some hwnd_fg, none, none)
    else
      match w.hwndFocus with
      | none => (some hwnd_fg, none, none)
      | some hwnd_focus => (some hwnd_fg, some hwnd_focus, some w.clsName)

/-! ## Clipboard polling loop (llm_toast_core.py lines 155-159 and 184-188)

The source loop is
`while time.time() < deadline: if seq() != seq_before: changed = True; break; time.sleep(0.02)`.
Each iteration checks the sequence number at the current time and then
sleeps 200 units (20ms). -/

/-- One polling loop: returns whether a sequence-number change was
observed, together with the time at which the loop exited. -/
def pollLoop (w : World) (seq_before t deadline : Nat) : Bool × Nat :=
  if h : t < deadline then
    if w.seq t ≠ seq_before then (true, t)
    else pollLoop w seq_before (t + 200) deadline
  else (false, t)
termination_by deadline - t
decreasing_by omega

/-! ## Strategy B key handling (llm_toast_core.py lines 162-181) -/

/-- The modifiers examined by the lifting loop at line 164, in source
order: Shift, Alt, Left-Win, Right-Win. -/
def liftCandidates : List Nat := [VK_SHIFT, VK_MENU, VK_LWIN, VK_RWIN]

/-- The lifting loop (lines 163-169): for each candidate modifier that is
down, inject a key-up, sleep 10ms, and record it as lifted.  Returns the
lifted keys (in order), the injected events (in order), and the total
sleep time. -/
def liftLoop (kd : Nat → Bool) : List Nat → List Nat × List Event × Nat
  | [] => ([], [], 0)
  | vk :: rest =>
    if kd vk then
      let r := liftLoop kd rest
      (vk :: r.1, Event.keyInput vk false :: r.2.1, 100 + r.2.2)
    else liftLoop kd rest

/-- The Ctrl+C injection sequence (lines 171-178): Ctrl down first when
Ctrl was not already down, then C down, C up, Ctrl up, and Ctrl down
again at the end exactly when Ctrl was originally down. -/
def ctrlCSeq (ctrl_was_down : Bool) : List Event :=
  (if ctrl_was_down then [] else [Event.keyInput VK_CONTROL true]) ++
  [Event.keyInput VK_C true, Event.keyInput VK_C false, Event.keyInput VK_CONTROL false] ++
  (if ctrl_was_down then [Event.keyInput VK_CONTROL true] else [])

/-- Sleep time of lines 171-178: 10ms after Ctrl down (only when it was
injected), 5ms after C down, 5ms after C up, 10ms after Ctrl up; no
sleep after the restoring Ctrl down. -/
def ctrlCSleep (ctrl_was_down : Bool) : Nat :=
  (if ctrl_was_down then 0 else 100) + 50 + 50 + 100

/-- The restore loop (lines 180-181): re-inject key-down for every lifted
modifier, sleeping 5ms after each. -/
def restoreEvents (lifted : List Nat) : List Event :=
  lifted.map (fun vk => Event.keyInput vk true)

/-! ## The capture attempt (lines 129-200) -/

/-- Result of one capture attempt.  `sel` and `original` are the pair the
source returns; `events` is the trace of side effects; `elapsed` is the
time at which the attempt returns (total blocking time, in tenth-ms);
`changed` records whether a sequence-number change was detected. -/
structure AttemptOut where
  sel : Option String
  original : Option String
  events : List Event
  elapsed : Nat
  changed : Bool
deriving DecidableEq, Repr

/-- Python's `if not sel` at line 195 treats both `None` and the empty
string as a failed read. -/
def finishRead (clip : Option String) : Option String :=
  match clip with
  | none => none
  | some s => if s = "" then none else some s

/-- The shared tail of the attempt (lines 190-200): if no change was
detected return `(None, original)`; otherwise read the clipboard at the
current time and return `(None, original)` when the read is falsy, else
`(sel, original)`. -/
def finishAttempt (w : World) (changed : Bool) (original : Option String)
    (events : List Event) (t : Nat) : AttemptOut :=
  if changed then
    ⟨finishRead (w.clipText t), original, events, t, changed⟩
  else
    ⟨none, original, events, t, changed⟩

/-- Strategy B (lines 162-188) followed by the shared tail: lift the held
modifiers, inject Ctrl+C, restore Ctrl and the lifted modifiers, then
poll for 60% of the budget (`6 * max_wait_ms` tenth-ms units).
`ev0` and `t1` are the trace and clock inherited from Strategy A. -/
def strategyB (w : World) (max_wait_ms seq_before : Nat) (original : Option String)
    (ev0 : List Event) (t1 : Nat) : AttemptOut :=
  let L := liftLoop w.keyDown liftCandidates
  let ctrl_was_down := w.keyDown VK_CONTROL
  let t2 := t1 + L.2.2 + ctrlCSleep ctrl_was_down + 50 * L.1.length
  let evs := ev0 ++ L.2.1 ++ ctrlCSeq ctrl_was_down ++ restoreEvents L.1
  let p := pollLoop w seq_before t2 (t2 + 6 * max_wait_ms)
  finishAttempt w p.1 original evs p.2

/-- `attempt_copy_via_wmcopy_and_sendinput` (lines 129-200).  Records
`seq_before` and `original` at time 0, then: if a focused control exists,
send it `WM_COPY` and poll for 40% of the budget (`4 * max_wait_ms`
tenth-ms units); if a change is seen, skip Strategy B and finish;
otherwise (or when no focused control exists) run Strategy B. -/
def attempt_copy_via_wmcopy_and_sendinput (w : World) (max_wait_ms : Nat) : AttemptOut :=
  let seq_before := w.seq 0
  let original := w.clipText 0
  match (focused_hwnd_and_class w).2.1 with
  | some hwnd_focus =>
    let p := pollLoop w seq_before 0 (4 * max_wait_ms)
    if p.1 then finishAttempt w true original [Event.wmCopy hwnd_focus] p.2
    else strategyB w max_wait_ms seq_before original [Event.wmCopy hwnd_focus] p.2
  | none => strategyB w max_wait_ms seq_before original [] 0

/-- Whether Strategy A itself detected a clipboard change (the only way
Strategy B is skipped). -/
def strategyAChanged (w : World) (max_wait_ms : Nat) : Bool :=
  match (focused_hwnd_and_class w).2.1 with
  | some _ => (pollLoop w (w.seq 0) 0 (4 * max_wait_ms)).1
  | none => false

/-- The trace contributed by Strategy A: the `WM_COPY` message when a
focused control exists, nothing otherwise. -/
def strategyATrace (w : World) : List Event :=
  match (focused_hwnd_and_class w).2.1 with
  | some hwnd_focus => [Event.wmCopy hwnd_focus]
  | none => []

/-- The clock value at which Strategy A hands over to Strategy B. -/
def aExitTime (w : World) (max_wait_ms : Nat) : Nat :=
  match (focused_hwnd_and_class w).2.1 with
  | some _ => (pollLoop w (w.seq 0) 0 (4 * max_wait_ms)).2
  | none => 0

/-- The key-input events of the trace that concern the Ctrl key. -/
def ctrlEvents (l : List Event) : List Event :=
  l.filter (fun e => match e with
    | Event.keyInput vk _ => vk == VK_CONTROL
    | _ => false)

/-! ## Hotkey registration (`register_first_available`, llm_toast_io.py lines 87-103)

The environment is `ok : Nat → Nat → Nat → Bool`: whether
`RegisterHotKey(None, id, mods, vk)` succeeds.  The result also carries
the trace of `(id, label)` pairs attempted, in order; `none` models the
`raise SystemExit` at line 103 (the fatal startup-abort condition). -/

/-- The loop of lines 96-102, with `i` the 1-based id of the next
candidate. -/
def registerGo (ok : Nat → Nat → Nat → Bool) :
    Nat → List (String × Nat × Nat) → List (Nat × String) × Option (Nat × String)
  | _, [] => ([], none)
  | i, (label, mods, vk) :: rest =>
    if ok i (mods ||| MOD_NOREPEAT) vk then ([(i, label)], some (i, label))
    else
      let r := registerGo ok (i + 1) rest
      ((i, label) :: r.1, r.2)

/-- `register_first_available(hotkey_options)`: try each candidate in
order with ids 1, 2, ...; return the first that registers, or `none`
(modelling `raise SystemExit`) when all fail. -/
def register_first_available (ok : Nat → Nat → Nat → Bool)
    (hotkey_options : List (String × Nat × Nat)) :
    List (Nat × String) × Option (Nat × String) :=
  registerGo ok 1 hotkey_options

/-- Whether the candidate at 0-based position `k` (attempted with id
`i + k`) registers successfully; `false` when `k` is out of range. -/
def candidateOkAt (ok : Nat → Nat → Nat → Bool)
    (opts : List (String × Nat × Nat)) (i k : Nat) : Bool :=
  match opts[k]? with
  | some c => ok (i + k) (c.2.1 ||| MOD_NOREPEAT) c.2.2
  | none => false

/-- The label of the candidate at 0-based position `k`. -/
def labelAt (opts : List (String × Nat × Nat)) (k : Nat) : String :=
  match opts[k]? with
  | some c => c.1
  | none => ""

/-- `HOTKEY_OPTIONS` (llm_toast_core.py lines 102-108). -/
def HOTKEY_OPTIONS : List (String × Nat × Nat) := [
  ("Ctrl+Shift+Z",     MOD_CONTROL ||| MOD_SHIFT,           VK_Z),
  ("Ctrl+Alt+Shift+Z", MOD_CONTROL ||| MOD_ALT ||| MOD_SHIFT, VK_Z),
  ("Ctrl+Alt+Z",       MOD_CONTROL ||| MOD_ALT,             VK_Z),
  ("Ctrl+Shift+`",     MOD_CONTROL ||| MOD_SHIFT,           VK_OEM_3),
  ("Ctrl+Shift+Space", MOD_CONTROL ||| MOD_SHIFT,           VK_SPACE)]

/-! ## Clipboard reader (`get_clipboard_text`, llm_toast_io.py lines 114-134) -/

/-- Environment of one clipboard read: whether `OpenClipboard` succeeds,
which text formats are available, the Unicode payload, the raw
`CF_TEXT` bytes, and the total system decoder for the default code page
(`raw.decode('mbcs', errors='replace')`, which replaces undecodable
bytes and never raises). -/
structure ClipEnv where
  openOk : Bool
  hasUnicode : Bool
  hasText : Bool
  uniData : String
  rawData : List Nat
  decodeMbcs : List Nat → String

/-- `get_clipboard_text()`: prefer `CF_UNICODETEXT`, fall back to
`CF_TEXT` decoded with the system code page, return `None` when neither
format is present or the clipboard cannot be opened.  All exceptions are
absorbed inside the source function (lines 128-132), which is why the
embedding is a total function into `Option String`. -/
def get_clipboard_text (e : ClipEnv) : Option String :=
  if e.openOk = false then none
  else if e.hasUnicode then some e.uniData
  else if e.hasText then some (e.decodeMbcs e.rawData)
  else none

/-- The clock value at which Strategy B starts its polling loop: the
Strategy A hand-over time plus the lifting sleeps (10ms per lifted key),
the Ctrl+C injection sleeps, and the restore sleeps (5ms per lifted
key). -/
def bStartTime (w : World) (t1 : Nat) : Nat :=
  t1 + 100 * (liftCandidates.filter w.keyDown).length
    + ctrlCSleep (w.keyDown VK_CONTROL)
    + 50 * (liftCandidates.filter w.keyDown).length

/-! ## Concrete environments used to instantiate the theorems -/

/-- A focused control exists; the clipboard changes (sequence number 0
to 1) at time 200, when its text becomes "Hi"; no keys are held. -/
def w1 : World :=
  { hwndFg := some 1, guiOk := true, hwndFocus := some 7, clsName := "Edit",
    keyDown := fun _ => false,
    seq := fun t => if 200 ≤ t then 1 else 0,
    clipText := fun t => if 200 ≤ t then some "Hi" else some "orig" }

/-- No foreground window; Shift and Ctrl are held; the clipboard never
changes. -/
def w2 : World :=
  { hwndFg := none, guiOk := true, hwndFocus := none, clsName := "",
    keyDown := fun vk => vk == VK_SHIFT || vk == VK_CONTROL,
    seq := fun _ => 0,
    clipText := fun _ => some "orig" }

/-- A focused control exists; the clipboard never changes; no keys are
held. -/
def w3 : World :=
  { hwndFg := some 1, guiOk := true, hwndFocus := some 7, clsName := "Edit",
    keyDown := fun _ => false,
    seq := fun _ => 5,
    clipText := fun _ => some "orig" }

/-- A focused control exists; the clipboard changes at time 200, at
which point its text is the empty string. -/
def w4 : World :=
  { hwndFg := some 1, guiOk := true, hwndFocus := some 7, clsName := "Edit",
    keyDown := fun _ => false,
    seq := fun t => if 200 ≤ t then 1 else 0,
    clipText := fun t => if 200 ≤ t then some "" else some "orig" }

/-- No foreground window, no keys held, clipboard never changes. -/
def w7 : World :=
  { hwndFg := none, guiOk := true, hwndFocus := none, clsName := "",
    keyDown := fun _ => false, seq := fun _ => 0, clipText := fun _ => some "orig" }

/-- A foreground window exists but its thread's GUI state cannot be
queried. -/
def w8 : World :=
  { hwndFg := some 3, guiOk := false, hwndFocus := some 9, clsName := "X",
    keyDown := fun _ => false, seq := fun _ => 0, clipText := fun _ => none }

/-- Hotkey environment in which only the registration with id 2
succeeds (the first candidate is already owned). -/
def okSecond : Nat → Nat → Nat → Bool := fun i _ _ => i == 2

/-- Hotkey environment in which every registration fails. -/
def okNone : Nat → Nat → Nat → Bool := fun _ _ _ => false

/-- Clipboard read environment: both text formats available. -/
def clipEnvUni : ClipEnv :=
  { openOk := true, hasUnicode := true, hasText := true,
    uniData := "U", rawData := [65], decodeMbcs := fun _ => "A" }

/-- Clipboard read environment: only the legacy single-byte format. -/
def clipEnvLegacy : ClipEnv :=
  { openOk := true, hasUnicode := false, hasText := true,
    uniData := "U", rawData := [65], decodeMbcs := fun _ => "A" }

/-- Clipboard read environment: no text format available. -/
def clipEnvNoFmt : ClipEnv :=
  { openOk := true, hasUnicode := false, hasText := false,
    uniData := "U", rawData := [], decodeMbcs := fun _ => "" }

/-- Clipboard read environment: the clipboard cannot be opened. -/
def clipEnvClosed : ClipEnv :=
  { openOk := false, hasUnicode := true, hasText := true,
    uniData := "U", rawData := [], decodeMbcs := fun _ => "" }

/-! ## Helper lemmas -/

lemma finishAttempt_events (w : World) (c : Bool) (o : Option String)
    (e : List Event) (t : Nat) : (finishAttempt w c o e t).events = e := by
  cases c <;> simp [finishAttempt]

lemma finishAttempt_original (w : World) (c : Bool) (o : Option String)
    (e : List Event) (t : Nat) : (finishAttempt w c o e t).original = o := by
  cases c <;> simp [finishAttempt]

lemma finishAttempt_elapsed (w : World) (c : Bool) (o : Option String)
    (e : List Event) (t : Nat) : (finishAttempt w c o e t).elapsed = t := by
  cases c <;> simp [finishAttempt]

lemma finishAttempt_changed (w : World) (c : Bool) (o : Option String)
    (e : List Event) (t : Nat) : (finishAttempt w c o e t).changed = c := by
  cases c <;> simp [finishAttempt]

lemma finishAttempt_sel (w : World) (c : Bool) (o : Option String)
    (e : List Event) (t : Nat) :
    (finishAttempt w c o e t).sel = if c then finishRead (w.clipText t) else none := by
  cases c <;> simp [finishAttempt]

lemma liftLoop_eq (kd : Nat → Bool) (l : List Nat) :
    liftLoop kd l =
      (l.filter kd, (l.filter kd).map (fun vk => Event.keyInput vk false),
        100 * (l.filter kd).length) := by
  induction l with
  | nil => simp [liftLoop]
  | cons vk rest ih =>
    by_cases hvk : kd vk
    · simp [liftLoop, hvk, ih, List.filter_cons, Nat.mul_add, Nat.mul_succ]
      omega
    · simp [liftLoop, hvk, ih, List.filter_cons]

lemma pollLoop_fst_of_const (w : World) (s : Nat) (h : ∀ u, w.seq u = s) :
    ∀ t d, (pollLoop w s t d).1 = false := by
  intro t d
  induction t, d using pollLoop.induct w s with
  | case1 t d hlt hne => exact absurd (h t) hne
  | case2 t d hlt hne ih =>
    unfold pollLoop
    rw [dif_pos hlt, if_neg hne]
    exact ih
  | case3 t d hlt =>
    unfold pollLoop
    rw [dif_neg hlt]

lemma pollLoop_snd_ge_of_const (w : World) (s : Nat) (h : ∀ u, w.seq u = s) :
    ∀ t d, d ≤ (pollLoop w s t d).2 := by
  intro t d
  induction t, d using pollLoop.induct w s with
  | case1 t d hlt hne => exact absurd (h t) hne
  | case2 t d hlt hne ih =>
    unfold pollLoop
    rw [dif_pos hlt, if_neg hne]
    exact ih
  | case3 t d hlt =>
    unfold pollLoop
    rw [dif_neg hlt]
    omega

lemma pollLoop_snd_lt (w : World) (s : Nat) :
    ∀ t d, t < d + 200 → (pollLoop w s t d).2 < d + 200 := by
  intro t d
  induction t, d using pollLoop.induct w s with
  | case1 t d hlt hne =>
    intro ht
    unfold pollLoop
    rw [dif_pos hlt, if_pos hne]
    exact ht
  | case2 t d hlt hne ih =>
    intro ht
    unfold pollLoop
    rw [dif_pos hlt, if_neg hne]
    exact ih (by omega)
  | case3 t d hlt =>
    intro ht
    unfold pollLoop
    rw [dif_neg hlt]
    exact ht

lemma attempt_of_strategyA_failed (w : World) (mw : Nat)
    (hA : strategyAChanged w mw = false) :
    attempt_copy_via_wmcopy_and_sendinput w mw =
      strategyB w mw (w.seq 0) (w.clipText 0) (strategyATrace w) (aExitTime w mw) := by
  unfold strategyAChanged at hA
  unfold attempt_copy_via_wmcopy_and_sendinput strategyATrace aExitTime
  cases hfoc : (focused_hwnd_and_class w).2.1 with
  | none => simp [hfoc]
  | some h =>
    simp only [hfoc] at hA
    simp [hfoc, hA]

lemma attempt_of_strategyA_changed (w : World) (mw h : Nat)
    (hf : (focused_hwnd_and_class w).2.1 = some h)
    (hc : (pollLoop w (w.seq 0) 0 (4 * mw)).1 = true) :
    attempt_copy_via_wmcopy_and_sendinput w mw =
      finishAttempt w true (w.clipText 0) [Event.wmCopy h]
        (pollLoop w (w.seq 0) 0 (4 * mw)).2 := by
  unfold attempt_copy_via_wmcopy_and_sendinput
  simp [hf, hc]

lemma attempt_shape (w : World) (mw : Nat) :
    ∃ c ev t, attempt_copy_via_wmcopy_and_sendinput w mw =
      finishAttempt w c (w.clipText 0) ev t := by
  by_cases hA : strategyAChanged w mw = false
  · rw [attempt_of_strategyA_failed w mw hA]
    exact ⟨_, _, _, rfl⟩
  · have hA2 : strategyAChanged w mw = true := by
      cases hb : strategyAChanged w mw
      · exact absurd hb hA
      · rfl
    unfold strategyAChanged at hA2
    cases hfoc : (focused_hwnd_and_class w).2.1 with
    | none => simp [hfoc] at hA2
    | some h =>
      simp only [hfoc] at hA2
      exact ⟨_, _, _, attempt_of_strategyA_changed w mw h hfoc hA2⟩

lemma strategyB_events (w : World) (mw sB : Nat) (o : Option String)
    (ev0 : List Event) (t1 : Nat) :
    (strategyB w mw sB o ev0 t1).events =
      ev0 ++ (liftCandidates.filter w.keyDown).map (fun vk => Event.keyInput vk false)
        ++ ctrlCSeq (w.keyDown VK_CONTROL)
        ++ restoreEvents (liftCandidates.filter w.keyDown) := by
  simp [strategyB, liftLoop_eq, finishAttempt_events]

lemma strategyB_original (w : World) (mw sB : Nat) (o : Option String)
    (ev0 : List Event) (t1 : Nat) :
    (strategyB w mw sB o ev0 t1).original = o := by
  simp [strategyB, finishAttempt_original]

lemma strategyB_elapsed (w : World) (mw sB : Nat) (o : Option String)
    (ev0 : List Event) (t1 : Nat) :
    (strategyB w mw sB o ev0 t1).elapsed =
      (pollLoop w sB (bStartTime w t1) (bStartTime w t1 + 6 * mw)).2 := by
  simp [strategyB, liftLoop_eq, finishAttempt_elapsed, bStartTime]

lemma strategyB_sel (w : World) (mw sB : Nat) (o : Option String)
    (ev0 : List Event) (t1 : Nat) :
    (strategyB w mw sB o ev0 t1).sel =
      if (pollLoop w sB (bStartTime w t1) (bStartTime w t1 + 6 * mw)).1 then
        finishRead (w.clipText (pollLoop w sB (bStartTime w t1) (bStartTime w t1 + 6 * mw)).2)
      else none := by
  simp [strategyB, liftLoop_eq, finishAttempt_sel, bStartTime]

lemma setClipboard_not_mem_ctrlCSeq (cd : Bool) (s : String) :
    Event.setClipboard s ∉ ctrlCSeq cd := by
  cases cd <;> simp [ctrlCSeq]

lemma setClipboard_not_mem_strategyATrace (w : World) (s : String) :
    Event.setClipboard s ∉ strategyATrace w := by
  unfold strategyATrace
  cases (focused_hwnd_and_class w).2.1 <;> simp

lemma attempt_no_clipboard_write (w : World) (mw : Nat) (s : String) :
    Event.setClipboard s ∉ (attempt_copy_via_wmcopy_and_sendinput w mw).events := by
  by_cases hA : strategyAChanged w mw = false
  · rw [attempt_of_strategyA_failed w mw hA, strategyB_events]
    simp [restoreEvents, setClipboard_not_mem_ctrlCSeq, setClipboard_not_mem_strategyATrace]
  · have hA2 : strategyAChanged w mw = true := by
      cases hb : strategyAChanged w mw
      · exact absurd hb hA
      · rfl
    unfold strategyAChanged at hA2
    cases hfoc : (focused_hwnd_and_class w).2.1 with
    | none => simp [hfoc] at hA2
    | some h =>
      simp only [hfoc] at hA2
      rw [attempt_of_strategyA_changed w mw h hfoc hA2, finishAttempt_events]
      simp

lemma finishRead_ne_some_empty (clip : Option String) : finishRead clip ≠ some "" := by
  cases clip with
  | none => simp [finishRead]
  | some s =>
    by_cases hs : s = "" <;> simp [finishRead, hs]

lemma ctrlEvents_append (l1 l2 : List Event) :
    ctrlEvents (l1 ++ l2) = ctrlEvents l1 ++ ctrlEvents l2 := by
  simp [ctrlEvents]

lemma ctrlEvents_strategyATrace (w : World) : ctrlEvents (strategyATrace w) = [] := by
  unfold strategyATrace
  cases (focused_hwnd_and_class w).2.1 <;> simp [ctrlEvents]

lemma vk_in_liftCandidates_ne_ctrl (vk : Nat) (hvk : vk ∈ liftCandidates) :
    (vk == VK_CONTROL) = false := by
  simp [liftCandidates, VK_SHIFT, VK_MENU, VK_LWIN, VK_RWIN] at hvk
  rcases hvk with rfl | rfl | rfl | rfl <;> decide

lemma ctrlEvents_liftEvents (kd : Nat → Bool) :
    ctrlEvents ((liftCandidates.filter kd).map (fun vk => Event.keyInput vk false)) = [] := by
  rw [ctrlEvents, List.filter_eq_nil_iff]
  intro e he
  simp only [List.mem_map, List.mem_filter] at he
  obtain ⟨vk, ⟨hvk, _⟩, rfl⟩ := he
  simp [vk_in_liftCandidates_ne_ctrl vk hvk]

lemma ctrlEvents_restoreEvents (kd : Nat → Bool) :
    ctrlEvents (restoreEvents (liftCandidates.filter kd)) = [] := by
  rw [ctrlEvents, List.filter_eq_nil_iff]
  intro e he
  simp only [restoreEvents, List.mem_map, List.mem_filter] at he
  obtain ⟨vk, ⟨hvk, _⟩, rfl⟩ := he
  simp [vk_in_liftCandidates_ne_ctrl vk hvk]

lemma attempt_original (w : World) (mw : Nat) :
    (attempt_copy_via_wmcopy_and_sendinput w mw).original = w.clipText 0 := by
  obtain ⟨c, ev, t, h⟩ := attempt_shape w mw
  rw [h, finishAttempt_original]

lemma attempt_sel_of_changed (w : World) (mw : Nat)
    (hc : (attempt_copy_via_wmcopy_and_sendinput w mw).changed = true) :
    (attempt_copy_via_wmcopy_and_sendinput w mw).sel =
      finishRead (w.clipText (attempt_copy_via_wmcopy_and_sendinput w mw).elapsed) := by
  obtain ⟨c, ev, t, h⟩ := attempt_shape w mw
  rw [h, finishAttempt_changed] at hc
  subst hc
  rw [h, finishAttempt_sel, finishAttempt_elapsed]
  simp

lemma candidateOkAt_cons_succ (ok : Nat → Nat → Nat → Bool) (c : String × Nat × Nat)
    (rest : List (String × Nat × Nat)) (i k : Nat) :
    candidateOkAt ok (c :: rest) i (k + 1) = candidateOkAt ok rest (i + 1) k := by
  unfold candidateOkAt
  rw [List.getElem?_cons_succ]
  have hidx : i + (k + 1) = i + 1 + k := by omega
  rw [hidx]

lemma labelAt_cons_succ (c : String × Nat × Nat) (rest : List (String × Nat × Nat)) (k : Nat) :
    labelAt (c :: rest) (k + 1) = labelAt rest k := by
  unfold labelAt
  rw [List.getElem?_cons_succ]

lemma registerGo_succeeds (ok : Nat → Nat → Nat → Bool) :
    ∀ (opts : List (String × Nat × Nat)) (i n : Nat),
      (∀ k, k < n → candidateOkAt ok opts i k = false) →
      candidateOkAt ok opts i n = true →
      (registerGo ok i opts).2 = some (i + n, labelAt opts n) ∧
      (registerGo ok i opts).1 = (List.range (n + 1)).map (fun k => (i + k, labelAt opts k)) := by
  intro opts
  induction opts with
  | nil =>
    intro i n hfail hsucc
    simp [candidateOkAt] at hsucc
  | cons c rest ih =>
    intro i n hfail hsucc
    obtain ⟨label, mods, vk⟩ := c
    cases n with
    | zero =>
      have hc : ok i (mods ||| MOD_NOREPEAT) vk = true := by
        simpa [candidateOkAt] using hsucc
      simp [registerGo, hc, labelAt, List.range_succ]
    | succ n =>
      have h0 : ok i (mods ||| MOD_NOREPEAT) vk = false := by
        have := hfail 0 (Nat.succ_pos n)
        simpa [candidateOkAt] using this
      have hfail2 : ∀ k, k < n → candidateOkAt ok rest (i + 1) k = false := by
        intro k hk
        rw [← candidateOkAt_cons_succ ok (label, mods, vk) rest i k]
        exact hfail (k + 1) (by omega)
      have hsucc2 : candidateOkAt ok rest (i + 1) n = true := by
        rw [← candidateOkAt_cons_succ ok (label, mods, vk) rest i n]
        exact hsucc
      have hih := ih (i + 1) n hfail2 hsucc2
      have heq : registerGo ok i ((label, mods, vk) :: rest) =
          ((i, label) :: (registerGo ok (i + 1) rest).1, (registerGo ok (i + 1) rest).2) := by
        simp [registerGo, h0]
      rw [heq]
      constructor
      · show (registerGo ok (i + 1) rest).2 =
          some (i + (n + 1), labelAt ((label, mods, vk) :: rest) (n + 1))
        rw [hih.1, labelAt_cons_succ]
        have hidx : i + 1 + n = i + (n + 1) := by omega
        rw [hidx]
      · show (i, label) :: (registerGo ok (i + 1) rest).1 =
          (List.range (n + 1 + 1)).map
            (fun k => (i + k, labelAt ((label, mods, vk) :: rest) k))
        rw [hih.2]
        conv_rhs => rw [List.range_succ_eq_map, List.map_cons, List.map_map]
        congr 1
        · simp [labelAt]
        · apply List.map_congr_left
          intro k hk
          simp only [Function.comp_apply, Prod.mk.injEq]
          exact ⟨by omega, (labelAt_cons_succ (label, mods, vk) rest k).symm⟩

lemma registerGo_fails (ok : Nat → Nat → Nat → Bool) :
    ∀ (opts : List (String × Nat × Nat)) (i : Nat),
      (∀ k, k < opts.length → candidateOkAt ok opts i k = false) →
      (registerGo ok i opts).2 = none := by
  intro opts
  induction opts with
  | nil => intro i _; rfl
  | cons c rest ih =>
    intro i h
    obtain ⟨label, mods, vk⟩ := c
    have h0 : ok i (mods ||| MOD_NOREPEAT) vk = false := by
      have := h 0 (by simp)
      simpa [candidateOkAt] using this
    have heq : registerGo ok i ((label, mods, vk) :: rest) =
        ((i, label) :: (registerGo ok (i + 1) rest).1, (registerGo ok (i + 1) rest).2) := by
      simp [registerGo, h0]
    rw [heq]
    show (registerGo ok (i + 1) rest).2 = none
    refine ih (i + 1) (fun k hk => ?_)
    rw [← candidateOkAt_cons_succ ok (label, mods, vk) rest i k]
    exact h (k + 1) (by simpa using Nat.succ_lt_succ hk)

/-! ## Claim theorems -/

/-- C1: in any capture attempt in which Strategy A's polling observes a
clipboard sequence-number change, Strategy B is never entered: the event
trace is exactly the single `WM_COPY` message, no synthetic key event is
injected, and the returned selection is the clipboard text read at the
moment Strategy A's poll detected the change. -/
theorem strategyA_shortcircuits_strategyB (w : World) (mw h : Nat)
    (hf : (focused_hwnd_and_class w).2.1 = some h)
    (hc : (pollLoop w (w.seq 0) 0 (4 * mw)).1 = true) :
    (attempt_copy_via_wmcopy_and_sendinput w mw).events = [Event.wmCopy h] ∧
    (∀ vk d, Event.keyInput vk d ∉ (attempt_copy_via_wmcopy_and_sendinput w mw).events) ∧
    (attempt_copy_via_wmcopy_and_sendinput w mw).sel =
      finishRead (w.clipText (pollLoop w (w.seq 0) 0 (4 * mw)).2) := by
  rw [attempt_of_strategyA_changed w mw h hf hc]
  refine ⟨finishAttempt_events w true (w.clipText 0) [Event.wmCopy h] _, ?_, ?_⟩
  · intro vk d
    rw [finishAttempt_events]
    simp
  · rw [finishAttempt_sel]
    simp

/-- Witness for C1 at `w1` with a 100ms budget: the change is seen at
time 200, the trace is the single `WM_COPY`, and "Hi" is captured. -/
theorem c1_witness :
    (attempt_copy_via_wmcopy_and_sendinput w1 100).events = [Event.wmCopy 7] ∧
    (attempt_copy_via_wmcopy_and_sendinput w1 100).sel = some "Hi" := by
  have h := strategyA_shortcircuits_strategyB w1 100 7 (by rfl) (by simp [pollLoop, w1])
  refine ⟨h.1, ?_⟩
  rw [h.2.2]
  simp [pollLoop, w1, finishRead]

/-- C2: in any capture attempt that enters Strategy B, the injected key
events are symmetric: every modifier among Shift/Alt/LWin/RWin that is
down is lifted (key-up in the trace) and re-injected down before the
attempt ends, and the last Ctrl key event of the trace is a key-down
exactly when Ctrl was down before the C keystroke — all of this
independent of whether the attempt detects a clipboard change. -/
theorem strategyB_modifier_symmetry (w : World) (mw : Nat)
    (hA : strategyAChanged w mw = false) :
    (∀ vk, vk ∈ liftCandidates → w.keyDown vk = true →
      Event.keyInput vk false ∈ (attempt_copy_via_wmcopy_and_sendinput w mw).events ∧
      Event.keyInput vk true ∈ (attempt_copy_via_wmcopy_and_sendinput w mw).events) ∧
    ((ctrlEvents (attempt_copy_via_wmcopy_and_sendinput w mw).events).getLast? =
        some (Event.keyInput VK_CONTROL true) ↔ w.keyDown VK_CONTROL = true) := by
  rw [attempt_of_strategyA_failed w mw hA, strategyB_events]
  constructor
  · intro vk hvk hdown
    have hmem : vk ∈ liftCandidates.filter w.keyDown := List.mem_filter.2 ⟨hvk, hdown⟩
    constructor
    · have hl : Event.keyInput vk false ∈
          (liftCandidates.filter w.keyDown).map (fun vk => Event.keyInput vk false) := by
        simp only [List.mem_map]
        exact ⟨vk, hmem, rfl⟩
      exact List.mem_append_left _ (List.mem_append_left _ (List.mem_append_right _ hl))
    · have hr : Event.keyInput vk true ∈ restoreEvents (liftCandidates.filter w.keyDown) := by
        simp only [restoreEvents, List.mem_map]
        exact ⟨vk, hmem, rfl⟩
      exact List.mem_append_right _ hr
  · rw [ctrlEvents_append, ctrlEvents_append, ctrlEvents_append,
        ctrlEvents_strategyATrace, ctrlEvents_liftEvents, ctrlEvents_restoreEvents]
    cases hcd : w.keyDown VK_CONTROL <;> simp [hcd, ctrlCSeq, ctrlEvents] <;> decide

/-- Witness for C2 at `w2` (Shift and Ctrl held, no focused control):
Shift is lifted and restored, and the last Ctrl event is the restoring
key-down. -/
theorem c2_witness :
    Event.keyInput VK_SHIFT false ∈ (attempt_copy_via_wmcopy_and_sendinput w2 100).events ∧
    Event.keyInput VK_SHIFT true ∈ (attempt_copy_via_wmcopy_and_sendinput w2 100).events ∧
    ((ctrlEvents (attempt_copy_via_wmcopy_and_sendinput w2 100).events).getLast? =
        some (Event.keyInput VK_CONTROL true) ↔ w2.keyDown VK_CONTROL = true) := by
  have h := strategyB_modifier_symmetry w2 100 (by rfl)
  have hs := h.1 VK_SHIFT (by simp [liftCandidates]) (by rfl)
  exact ⟨hs.1, hs.2, h.2⟩

/-- C3: in any capture attempt during which the clipboard sequence
number never differs from its value at attempt start, the protocol
returns `(absent, original)` where `original` is the clipboard text read
at attempt start, and the protocol performs no clipboard write (no
`setClipboard` event is ever in the trace). -/
theorem no_change_returns_absent_and_no_write (w : World) (mw : Nat)
    (hseq : ∀ t, w.seq t = w.seq 0) :
    (attempt_copy_via_wmcopy_and_sendinput w mw).sel = none ∧
    (attempt_copy_via_wmcopy_and_sendinput w mw).original = w.clipText 0 ∧
    ∀ s, Event.setClipboard s ∉ (attempt_copy_via_wmcopy_and_sendinput w mw).events := by
  have hA : strategyAChanged w mw = false := by
    unfold strategyAChanged
    cases (focused_hwnd_and_class w).2.1
    · rfl
    · exact pollLoop_fst_of_const w (w.seq 0) hseq 0 (4 * mw)
  refine ⟨?_, ?_, fun s => attempt_no_clipboard_write w mw s⟩
  · rw [attempt_of_strategyA_failed w mw hA, strategyB_sel,
        pollLoop_fst_of_const w (w.seq 0) hseq]
    simp
  · rw [attempt_of_strategyA_failed w mw hA, strategyB_original]

/-- Witness for C3 at `w3` (constant sequence number 5): the attempt
returns `(none, some "orig")`. -/
theorem c3_witness :
    (attempt_copy_via_wmcopy_and_sendinput w3 100).sel = none ∧
    (attempt_copy_via_wmcopy_and_sendinput w3 100).original = some "orig" := by
  have h := no_change_returns_absent_and_no_write w3 100 (fun t => rfl)
  exact ⟨h.1, h.2.1⟩

/-- C4 (counterexample): at `w4` the clipboard change is detected and
the clipboard text read afterwards is present but empty; the claim says
a present text is returned as the captured selection, but the code
(Python's falsy test `if not sel`) returns the absent selection
instead. -/
theorem c4_counterexample :
    (attempt_copy_via_wmcopy_and_sendinput w4 100).changed = true ∧
    w4.clipText (attempt_copy_via_wmcopy_and_sendinput w4 100).elapsed = some "" ∧
    (attempt_copy_via_wmcopy_and_sendinput w4 100).sel = none ∧
    (attempt_copy_via_wmcopy_and_sendinput w4 100).sel ≠
      w4.clipText (attempt_copy_via_wmcopy_and_sendinput w4 100).elapsed := by
  have h := attempt_of_strategyA_changed w4 100 7 (by rfl) (by simp [pollLoop, w4])
  rw [h]
  simp [finishAttempt, finishRead, pollLoop, w4]

/-- C4 (amended): in any capture attempt that detects a sequence-number
change, the clipboard text is read at detection time; if it is absent or
the empty string the attempt returns `(absent, original)`, otherwise it
returns that text together with `original`, the clipboard text read at
attempt start. -/
theorem capture_read_after_change (w : World) (mw : Nat)
    (hc : (attempt_copy_via_wmcopy_and_sendinput w mw).changed = true) :
    (w.clipText (attempt_copy_via_wmcopy_and_sendinput w mw).elapsed = none →
      (attempt_copy_via_wmcopy_and_sendinput w mw).sel = none) ∧
    (w.clipText (attempt_copy_via_wmcopy_and_sendinput w mw).elapsed = some "" →
      (attempt_copy_via_wmcopy_and_sendinput w mw).sel = none) ∧
    (∀ s, w.clipText (attempt_copy_via_wmcopy_and_sendinput w mw).elapsed = some s →
      s ≠ "" → (attempt_copy_via_wmcopy_and_sendinput w mw).sel = some s) ∧
    (attempt_copy_via_wmcopy_and_sendinput w mw).original = w.clipText 0 := by
  have hs := attempt_sel_of_changed w mw hc
  refine ⟨?_, ?_, ?_, attempt_original w mw⟩
  · intro h0
    rw [hs, h0]
    rfl
  · intro h0
    rw [hs, h0]
    simp [finishRead]
  · intro s h0 hne
    rw [hs, h0]
    simp [finishRead, hne]

/-- Witness for the amended C4 at `w1`: change detected, text "Hi"
present and non-empty, so the attempt returns `(some "Hi", some
"orig")`. -/
theorem c4_witness :
    (attempt_copy_via_wmcopy_and_sendinput w1 100).original = some "orig" ∧
    (attempt_copy_via_wmcopy_and_sendinput w1 100).sel = some "Hi" := by
  have hch : (attempt_copy_via_wmcopy_and_sendinput w1 100).changed = true := by
    rw [attempt_of_strategyA_changed w1 100 7 (by rfl) (by simp [pollLoop, w1])]
    rw [finishAttempt_changed]
  have h := capture_read_after_change w1 100 hch
  refine ⟨h.2.2.2, h.2.2.1 "Hi" ?_ (by decide)⟩
  rw [attempt_of_strategyA_changed w1 100 7 (by rfl) (by simp [pollLoop, w1])]
  rw [finishAttempt_elapsed]
  simp [pollLoop, w1]

/-- C5: hotkey registration tries the candidates strictly in list order
with ids 1, 2, ...; if the first `n` candidates fail and candidate `n`
(0-based) succeeds, it returns id `n + 1` with that candidate's label,
having attempted exactly candidates 0..n; if every candidate fails it
raises the fatal startup-abort condition (modelled as `none`). -/
theorem hotkey_registration_order (ok : Nat → Nat → Nat → Bool)
    (opts : List (String × Nat × Nat)) :
    (∀ n, (∀ k, k < n → candidateOkAt ok opts 1 k = false) →
      candidateOkAt ok opts 1 n = true →
      (register_first_available ok opts).2 = some (n + 1, labelAt opts n) ∧
      (register_first_available ok opts).1 =
        (List.range (n + 1)).map (fun k => (k + 1, labelAt opts k))) ∧
    ((∀ k, k < opts.length → candidateOkAt ok opts 1 k = false) →
      (register_first_available ok opts).2 = none) := by
  constructor
  · intro n hfail hsucc
    have h := registerGo_succeeds ok opts 1 n hfail hsucc
    constructor
    · rw [register_first_available, h.1]
      have hidx : 1 + n = n + 1 := by omega
      rw [hidx]
    · rw [register_first_available, h.2]
      apply List.map_congr_left
      intro k _
      simp [Nat.add_comm]
  · intro hall
    exact registerGo_fails ok opts 1 hall

/-- Witness for C5 on the real `HOTKEY_OPTIONS` list: when only id 2 can
register, the first candidate is attempted and fails, the second
succeeds and its label is returned; when nothing can register the fatal
condition is raised. -/
theorem c5_witness :
    (register_first_available okSecond HOTKEY_OPTIONS).2 = some (2, "Ctrl+Alt+Shift+Z") ∧
    (register_first_available okSecond HOTKEY_OPTIONS).1 =
      [(1, "Ctrl+Shift+Z"), (2, "Ctrl+Alt+Shift+Z")] ∧
    (register_first_available okNone HOTKEY_OPTIONS).2 = none := by
  have h := (hotkey_registration_order okSecond HOTKEY_OPTIONS).1 1 (by decide) (by decide)
  have hall := (hotkey_registration_order okNone HOTKEY_OPTIONS).2 (by decide)
  refine ⟨?_, ?_, hall⟩
  · rw [h.1]
    rfl
  · rw [h.2]
    rfl

/-- C6 (counterexample): at `w3` with a 100ms budget the attempt blocks
for 130ms (Strategy A polls its full 40ms, the Ctrl+C injection sleeps
add 30ms, Strategy B polls its full 60ms), exceeding the
`max_wait_ms = 100` budget (1000 tenth-ms units), so the blocking time
is not bounded by `maxWaitMilliseconds` and the polling loops are not
the only blocking. -/
theorem c6_counterexample :
    (attempt_copy_via_wmcopy_and_sendinput w3 100).elapsed = 1300 ∧
    10 * 100 < (attempt_copy_via_wmcopy_and_sendinput w3 100).elapsed := by
  have h : (attempt_copy_via_wmcopy_and_sendinput w3 100).elapsed = 1300 := by
    simp [attempt_copy_via_wmcopy_and_sendinput, focused_hwnd_and_class, pollLoop,
      strategyB, liftLoop, liftCandidates, ctrlCSleep, finishAttempt, w3]
  rw [h]
  exact ⟨rfl, by omega⟩

/-- C6 (amended): for every capture attempt the total blocking time is
less than `max_wait_ms` plus 130ms of overhead (each polling loop can
overshoot its 40%/60% share by one 20ms sleep quantum, and the fixed
inter-event injection sleeps contribute at most 90ms); in tenth-ms
units: `elapsed < 10 * max_wait_ms + 1300`. -/
theorem attempt_blocking_time_bound (w : World) (mw : Nat) :
    (attempt_copy_via_wmcopy_and_sendinput w mw).elapsed < 10 * mw + 1300 := by
  by_cases hA : strategyAChanged w mw = false
  · rw [attempt_of_strategyA_failed w mw hA, strategyB_elapsed]
    have hexit := pollLoop_snd_lt w (w.seq 0) (bStartTime w (aExitTime w mw))
      (bStartTime w (aExitTime w mw) + 6 * mw) (by omega)
    have hlen : (liftCandidates.filter w.keyDown).length ≤ 4 :=
      le_trans (List.length_filter_le _ _) (by simp [liftCandidates])
    have hcs : ctrlCSleep (w.keyDown VK_CONTROL) ≤ 300 := by
      cases w.keyDown VK_CONTROL <;> simp [ctrlCSleep]
    have ht1 : aExitTime w mw < 4 * mw + 200 := by
      unfold aExitTime
      cases (focused_hwnd_and_class w).2.1
      · show (0 : Nat) < 4 * mw + 200
        omega
      · exact pollLoop_snd_lt w (w.seq 0) 0 (4 * mw) (by omega)
    have hbs : bStartTime w (aExitTime w mw) =
        aExitTime w mw + 100 * (liftCandidates.filter w.keyDown).length
          + ctrlCSleep (w.keyDown VK_CONTROL)
          + 50 * (liftCandidates.filter w.keyDown).length := rfl
    omega
  · have hA2 : strategyAChanged w mw = true := by
      cases hb : strategyAChanged w mw
      · exact absurd hb hA
      · rfl
    unfold strategyAChanged at hA2
    cases hfoc : (focused_hwnd_and_class w).2.1 with
    | none => simp [hfoc] at hA2
    | some h =>
      simp only [hfoc] at hA2
      rw [attempt_of_strategyA_changed w mw h hfoc hA2, finishAttempt_elapsed]
      have := pollLoop_snd_lt w (w.seq 0) 0 (4 * mw) (by omega)
      omega

/-- C7 (counterexample): at `w7` (no focused control, no keys held,
clipboard never changes) with a 100ms budget the attempt returns
`(none, some "orig")` after 90ms — 60% of the budget plus the 30ms
injection sleeps — which is strictly before the full budget (1000
tenth-ms units) has elapsed, contradicting "only after the full time
budget has elapsed". -/
theorem c7_counterexample :
    (focused_hwnd_and_class w7).2.1 = none ∧
    (attempt_copy_via_wmcopy_and_sendinput w7 100).sel = none ∧
    (attempt_copy_via_wmcopy_and_sendinput w7 100).original = some "orig" ∧
    (attempt_copy_via_wmcopy_and_sendinput w7 100).elapsed = 900 ∧
    (attempt_copy_via_wmcopy_and_sendinput w7 100).elapsed < 10 * 100 := by
  refine ⟨rfl, ?_⟩
  have h : attempt_copy_via_wmcopy_and_sendinput w7 100 =
      { sel := none, original := some "orig",
        events := [Event.keyInput VK_CONTROL true, Event.keyInput VK_C true,
          Event.keyInput VK_C false, Event.keyInput VK_CONTROL false],
        elapsed := 900, changed := false } := by
    simp [attempt_copy_via_wmcopy_and_sendinput, focused_hwnd_and_class, pollLoop,
      strategyB, liftLoop, liftCandidates, ctrlCSleep, ctrlCSeq, restoreEvents,
      finishAttempt, w7]
  rw [h]
  refine ⟨rfl, rfl, rfl, by decide⟩

/-- C7 (amended): when no control has keyboard focus, no modifier keys
are held and the sequence number never changes, the attempt goes
straight to Strategy B lifting zero keys, injects exactly Ctrl down, C
down, C up, Ctrl up, and returns `(absent, original)` after the
Strategy-B share of the budget — 30ms of injection sleeps plus 60% of
`max_wait_ms` and less than one further 20ms quantum — not after the
full budget. -/
theorem no_focus_no_modifiers_flow (w : World) (mw : Nat)
    (hfocus : (focused_hwnd_and_class w).2.1 = none)
    (hkeys : ∀ vk, w.keyDown vk = false)
    (hseq : ∀ t, w.seq t = w.seq 0) :
    (attempt_copy_via_wmcopy_and_sendinput w mw).events =
      [Event.keyInput VK_CONTROL true, Event.keyInput VK_C true,
       Event.keyInput VK_C false, Event.keyInput VK_CONTROL false] ∧
    (attempt_copy_via_wmcopy_and_sendinput w mw).sel = none ∧
    (attempt_copy_via_wmcopy_and_sendinput w mw).original = w.clipText 0 ∧
    300 + 6 * mw ≤ (attempt_copy_via_wmcopy_and_sendinput w mw).elapsed ∧
    (attempt_copy_via_wmcopy_and_sendinput w mw).elapsed < 300 + 6 * mw + 200 := by
  have hA : strategyAChanged w mw = false := by
    unfold strategyAChanged
    rw [hfocus]
  have hfilter : liftCandidates.filter w.keyDown = [] := by
    rw [List.filter_eq_nil_iff]
    intro a _
    simp [hkeys a]
  have hap : strategyATrace w = [] := by
    unfold strategyATrace
    rw [hfocus]
  have hat : aExitTime w mw = 0 := by
    unfold aExitTime
    rw [hfocus]
  have hbs : bStartTime w (aExitTime w mw) = 300 := by
    rw [hat]
    unfold bStartTime
    rw [hfilter]
    simp [ctrlCSleep, hkeys VK_CONTROL]
  rw [attempt_of_strategyA_failed w mw hA]
  refine ⟨?_, ?_,
    strategyB_original w mw (w.seq 0) (w.clipText 0) (strategyATrace w) (aExitTime w mw),
    ?_, ?_⟩
  · rw [strategyB_events, hap, hfilter]
    simp [restoreEvents, ctrlCSeq, hkeys VK_CONTROL]
  · rw [strategyB_sel, pollLoop_fst_of_const w (w.seq 0) hseq]
    simp
  · rw [strategyB_elapsed, hbs]
    exact pollLoop_snd_ge_of_const w (w.seq 0) hseq 300 (300 + 6 * mw)
  · rw [strategyB_elapsed, hbs]
    exact pollLoop_snd_lt w (w.seq 0) 300 (300 + 6 * mw) (by omega)

/-- Witness for the amended C7 at `w7`: the trace is exactly the Ctrl+C
injection and at least 30ms + 60% of the budget elapses. -/
theorem c7_witness :
    (attempt_copy_via_wmcopy_and_sendinput w7 100).events =
      [Event.keyInput VK_CONTROL true, Event.keyInput VK_C true,
       Event.keyInput VK_C false, Event.keyInput VK_CONTROL false] ∧
    300 + 6 * 100 ≤ (attempt_copy_via_wmcopy_and_sendinput w7 100).elapsed := by
  have h := no_focus_no_modifiers_flow w7 100 (by rfl) (fun vk => rfl) (fun t => rfl)
  exact ⟨h.1, h.2.2.2.1⟩

/-- C8: if no foreground window exists all three fields of the focus
snapshot are absent; if a foreground window exists but its thread's GUI
state cannot be queried, the foreground handle is returned and the
focused-control handle and class name are absent. -/
theorem focus_inspector_absent_fields (w : World) :
    (w.hwndFg = none → focused_hwnd_and_class w = (none, none, none)) ∧
    (∀ hwnd_fg, w.hwndFg = some hwnd_fg → w.guiOk = false →
      focused_hwnd_and_class w = (some hwnd_fg, none, none)) := by
  constructor
  · intro h
    simp [focused_hwnd_and_class, h]
  · intro fg hfg hg
    simp [focused_hwnd_and_class, hfg, hg]

/-- Witness for C8: no foreground window at `w7`; foreground without
queryable GUI state at `w8`. -/
theorem c8_witness :
    focused_hwnd_and_class w7 = (none, none, none) ∧
    focused_hwnd_and_class w8 = (some 3, none, none) :=
  ⟨(focus_inspector_absent_fields w7).1 rfl,
   (focus_inspector_absent_fields w8).2 3 rfl rfl⟩

/-- C9: the clipboard read prefers the Unicode text format, falls back
to the legacy single-byte format decoded with the system default code
page (undecodable bytes replaced, a total decoder), and yields absent
when neither format is present or the clipboard cannot be opened; the
embedding is a total function, reflecting that the source absorbs every
exception. -/
theorem get_clipboard_text_formats (e : ClipEnv) :
    (e.openOk = false → get_clipboard_text e = none) ∧
    (e.openOk = true → e.hasUnicode = true → get_clipboard_text e = some e.uniData) ∧
    (e.openOk = true → e.hasUnicode = false → e.hasText = true →
      get_clipboard_text e = some (e.decodeMbcs e.rawData)) ∧
    (e.openOk = true → e.hasUnicode = false → e.hasText = false →
      get_clipboard_text e = none) := by
  refine ⟨fun h => ?_, fun h1 h2 => ?_, fun h1 h2 h3 => ?_, fun h1 h2 h3 => ?_⟩ <;>
    simp [get_clipboard_text, *]

/-- Witness for C9 on the four concrete clipboard environments. -/
theorem c9_witness :
    get_clipboard_text clipEnvUni = some "U" ∧
    get_clipboard_text clipEnvLegacy = some "A" ∧
    get_clipboard_text clipEnvNoFmt = none ∧
    get_clipboard_text clipEnvClosed = none :=
  ⟨(get_clipboard_text_formats clipEnvUni).2.1 rfl rfl,
   (get_clipboard_text_formats clipEnvLegacy).2.2.1 rfl rfl rfl,
   (get_clipboard_text_formats clipEnvNoFmt).2.2.2 rfl rfl rfl,
   (get_clipboard_text_formats clipEnvClosed).1 rfl⟩

/-- C10: the captured selection of a capture attempt is never the empty
string; when a change is detected but the text read afterwards is the
empty string, the attempt returns `(absent, original)` exactly as in the
no-text-format case. -/
theorem captured_selection_nonempty (w : World) (mw : Nat) :
    (attempt_copy_via_wmcopy_and_sendinput w mw).sel ≠ some "" ∧
    ((attempt_copy_via_wmcopy_and_sendinput w mw).changed = true →
      w.clipText (attempt_copy_via_wmcopy_and_sendinput w mw).elapsed = some "" →
      (attempt_copy_via_wmcopy_and_sendinput w mw).sel = none ∧
      (attempt_copy_via_wmcopy_and_sendinput w mw).original = w.clipText 0) := by
  constructor
  · obtain ⟨c, ev, t, h⟩ := attempt_shape w mw
    rw [h, finishAttempt_sel]
    cases c
    · simp
    · simp [finishRead_ne_some_empty]
  · intro hc h0
    refine ⟨?_, attempt_original w mw⟩
    rw [attempt_sel_of_changed w mw hc, h0]
    simp [finishRead]

/-- Witness for C10 at `w4` (clipboard changes to an empty string): the
selection is absent and in particular not the empty string. -/
theorem c10_witness :
    (attempt_copy_via_wmcopy_and_sendinput w4 100).sel ≠ some "" ∧
    (attempt_copy_via_wmcopy_and_sendinput w4 100).sel = none := by
  have h := captured_selection_nonempty w4 100
  have hch : (attempt_copy_via_wmcopy_and_sendinput w4 100).changed = true := by
    rw [attempt_of_strategyA_changed w4 100 7 (by rfl) (by simp [pollLoop, w4])]
    rw [finishAttempt_changed]
  have h0 : w4.clipText (attempt_copy_via_wmcopy_and_sendinput w4 100).elapsed = some "" := by
    rw [attempt_of_strategyA_changed w4 100 7 (by rfl) (by simp [pollLoop, w4])]
    rw [finishAttempt_elapsed]
    simp [pollLoop, w4]
  exact ⟨h.1, (h.2 hch h0).1⟩
